import Mathlib

/-!
Verification of the urgency/triage scoring and appointment-booking logic of
the citizens-advice application.

Times are modelled as integers (epoch milliseconds, as in the TypeScript
sources, which use `Date.getTime()`).
-/

/-- One day in milliseconds, as used by the TypeScript sources
(`24 * 60 * 60 * 1000`). -/
def dayMs : Int := 24 * 60 * 60 * 1000

/-- Urgency tier, from the priority system described by the repository
(STANDARD / MEDIUM / URGENT). -/
inductive Tier
  | STANDARD
  | MEDIUM
  | URGENT
deriving DecidableEq, Repr

/-- Embedded from `src/web-ui/src/components/AppointmentBooking.tsx` line 35:
`urgencyScore >= 8 ? 'URGENT' : urgencyScore >= 5 ? 'Medium Priority' : 'Standard'`. -/
def urgencyLabel (urgencyScore : Int) : String :=
  if urgencyScore ≥ 8 then "URGENT"
  else if urgencyScore ≥ 5 then "Medium Priority"
  else "Standard"

/-- Embedded from `src/web-ui/src/components/Dashboard.tsx` line 91:
`appt.urgencyScore >= 8 ? 'high' : appt.urgencyScore >= 5 ? 'medium' : 'low'`. -/
def dashboardUrgencyClass (urgencyScore : Int) : String :=
  if urgencyScore ≥ 8 then "high"
  else if urgencyScore ≥ 5 then "medium"
  else "low"

/-- The tier derived from a score, with the same thresholds as the two UI
components above (`>= 8` URGENT, `>= 5` MEDIUM, otherwise STANDARD). -/
def tierOfScore (s : Int) : Tier :=
  if s ≥ 8 then .URGENT
  else if s ≥ 5 then .MEDIUM
  else .STANDARD

/-- Severity tags enumerated by the repository documentation
(homelessness risk, eviction notice, benefit sanction, debt enforcement,
court summons, bailiff visit). -/
inductive SeverityFlag
  | homelessnessRisk
  | evictionNotice
  | benefitSanction
  | debtEnforcement
  | courtSummons
  | bailiffVisit
deriving DecidableEq, Repr

/-- Vulnerability tags enumerated by the repository documentation
(disability, children, elderly, language barriers, mental health). -/
inductive VulnerabilityFlag
  | disability
  | childrenPresent
  | elderly
  | languageBarrier
  | mentalHealth
deriving DecidableEq, Repr

/-- Signals extracted from a case description. `daysUntilDeadline` is `none`
when no deadline is known. -/
structure CaseSignals where
  daysUntilDeadline : Option Int
  severityFlags : List SeverityFlag
  vulnerabilityFlags : List VulnerabilityFlag
deriving DecidableEq, Repr

/-- Modelled from the spec: the deadline contribution of the urgency scorer
(`assess_case_urgency`, whose implementation `enhanced_tools.py` is not in the
repository snapshot).  The spec prescribes an inverse monotone weight curve
(≤ 2 days the maximum weight, ≤ 5 days a medium weight, ≤ 14 days a low
weight, otherwise none) and that a negative `daysUntilDeadline` is clamped to
zero rather than rejected; the exact numeric weights are left open, so the
documented table 4 / 3 / 2 / 0 is used, which matches the spec's worked
examples (deadline ≤ 2 plus one severity flag gives score ≥ 8; eviction plus
a 14-day deadline lands in the 6–9 band). -/
def deadlineWeight (days : Option Int) : Int :=
  match days with
  | none => 0
  | some d =>
    let d := max d 0
    if d ≤ 2 then 4
    else if d ≤ 5 then 3
    else if d ≤ 14 then 2
    else 0

/-- Modelled from the spec: each distinct severity flag adds a fixed
increment (3 points in the documented table); flags are deduplicated. -/
def severityContribution (flags : List SeverityFlag) : Int :=
  3 * flags.dedup.length

/-- Modelled from the spec: each distinct vulnerability flag adds a smaller
fixed increment (1 point in the documented table); flags are deduplicated. -/
def vulnerabilityContribution (flags : List VulnerabilityFlag) : Int :=
  1 * flags.dedup.length

/-- An urgency assessment: a score in [1,10] and the tier derived from it. -/
structure UrgencyAssessment where
  score : Int
  tier : Tier
deriving DecidableEq, Repr

/-- Modelled from the spec: the urgency scorer `assessUrgency`
(`assess_case_urgency` in the missing `enhanced_tools.py`).  Base score 1;
final score = min(10, max(1, base + deadline + severity + vulnerability));
tier derived from the score by the fixed thresholds. -/
def assessUrgency (sig : CaseSignals) : UrgencyAssessment :=
  let raw := 1 + deadlineWeight sig.daysUntilDeadline
      + severityContribution sig.severityFlags
      + vulnerabilityContribution sig.vulnerabilityFlags
  let score := min 10 (max 1 raw)
  { score := score, tier := tierOfScore score }

/-- C1 -- The tier derived from a score s in [1,10] is STANDARD for 1 ≤ s ≤ 4,
MEDIUM for 5 ≤ s ≤ 7 and URGENT for 8 ≤ s ≤ 10, both for the derived `Tier`
and for the UI labels of `AppointmentBooking.tsx` and `Dashboard.tsx`; in
particular a score of exactly 7 is MEDIUM, never URGENT. -/
theorem tier_thresholds (s : Int) (h1 : 1 ≤ s) (h10 : s ≤ 10) :
    (s ≤ 4 → tierOfScore s = .STANDARD ∧ urgencyLabel s = "Standard" ∧
      dashboardUrgencyClass s = "low") ∧
    (5 ≤ s → s ≤ 7 → tierOfScore s = .MEDIUM ∧ urgencyLabel s = "Medium Priority" ∧
      dashboardUrgencyClass s = "medium") ∧
    (8 ≤ s → tierOfScore s = .URGENT ∧ urgencyLabel s = "URGENT" ∧
      dashboardUrgencyClass s = "high") ∧
    (tierOfScore 7 = .MEDIUM ∧ urgencyLabel 7 ≠ "URGENT") := by
  unfold tierOfScore urgencyLabel dashboardUrgencyClass
  refine ⟨?_, ?_, ?_, ?_⟩
  · intro hs4
    split_ifs <;> first | omega | exact ⟨rfl, rfl, rfl⟩
  · intro hs5 hs7
    split_ifs <;> first | omega | exact ⟨rfl, rfl, rfl⟩
  · intro hs8
    split_ifs <;> first | omega | exact ⟨rfl, rfl, rfl⟩
  · exact ⟨by decide, by decide⟩

/-- Witness for `tier_thresholds` at s = 7. -/
theorem tier_thresholds_witness :
    (1 ≤ (7 : Int)) ∧ ((7 : Int) ≤ 10) ∧
    (5 ≤ (7 : Int) → (7 : Int) ≤ 7 → tierOfScore 7 = .MEDIUM ∧
      urgencyLabel 7 = "Medium Priority" ∧ dashboardUrgencyClass 7 = "medium") :=
  ⟨by decide, by decide, (tier_thresholds 7 (by decide) (by decide)).2.1⟩

/-- C2 -- For every input, `assessUrgency` returns exactly
min(10, max(1, base + deadline + severity + vulnerability)) and that value
always lies in [1,10]. -/
theorem assessUrgency_clamped (sig : CaseSignals) :
    (assessUrgency sig).score =
      min 10 (max 1 (1 + deadlineWeight sig.daysUntilDeadline
        + severityContribution sig.severityFlags
        + vulnerabilityContribution sig.vulnerabilityFlags)) ∧
    1 ≤ (assessUrgency sig).score ∧ (assessUrgency sig).score ≤ 10 := by
  refine ⟨rfl, ?_, ?_⟩ <;> simp only [assessUrgency] <;> omega

/-- C3 -- Holding both flag lists constant, moving the deadline closer never
decreases the score: if two signal records agree on severity and
vulnerability flags and both carry a deadline, the closer deadline scores at
least as high. -/
theorem assessUrgency_deadline_monotone (s1 s2 : CaseSignals)
    (hsev : s1.severityFlags = s2.severityFlags)
    (hvul : s1.vulnerabilityFlags = s2.vulnerabilityFlags)
    (d1 d2 : Int) (hd1 : s1.daysUntilDeadline = some d1)
    (hd2 : s2.daysUntilDeadline = some d2) (hle : d1 ≤ d2) :
    (assessUrgency s2).score ≤ (assessUrgency s1).score := by
  have hw : deadlineWeight (some d2) ≤ deadlineWeight (some d1) := by
    simp only [deadlineWeight]
    split_ifs <;> omega
  simp only [assessUrgency, hsev, hvul, hd1, hd2]
  omega

/-- Witness for `assessUrgency_deadline_monotone`: a 1-day deadline scores at
least as high as a 10-day deadline with the same (empty) flags. -/
theorem assessUrgency_deadline_monotone_witness :
    (assessUrgency ⟨some 10, [], []⟩).score ≤ (assessUrgency ⟨some 1, [], []⟩).score :=
  assessUrgency_deadline_monotone ⟨some 1, [], []⟩ ⟨some 10, [], []⟩
    rfl rfl 1 10 rfl rfl (by decide)

/-- C4 -- On fully empty signals (no deadline, no severity flags, no
vulnerability flags) `assessUrgency` returns score exactly 1 and tier
STANDARD; being a total function it returns normally on such input. -/
theorem assessUrgency_empty (sig : CaseSignals)
    (hd : sig.daysUntilDeadline = none)
    (hs : sig.severityFlags = [])
    (hv : sig.vulnerabilityFlags = []) :
    (assessUrgency sig).score = 1 ∧ (assessUrgency sig).tier = .STANDARD := by
  simp [assessUrgency, hd, hs, hv, deadlineWeight, severityContribution,
    vulnerabilityContribution, tierOfScore]

/-- Witness for `assessUrgency_empty` at the concrete empty signal record. -/
theorem assessUrgency_empty_witness :
    (assessUrgency ⟨none, [], []⟩).score = 1 ∧
    (assessUrgency ⟨none, [], []⟩).tier = .STANDARD :=
  assessUrgency_empty ⟨none, [], []⟩ rfl rfl rfl

/-- An appointment slot in the shared capacity pool. -/
structure Slot where
  slotId : Nat
  startTime : Int
  available : Bool
deriving DecidableEq, Repr

/-- Booking status, from the Amplify `Appointment` model
(`status: a.enum(['scheduled', 'completed', 'cancelled', 'noshow'])`). -/
inductive BookingStatus
  | scheduled
  | completed
  | cancelled
  | noshow
deriving DecidableEq, Repr

/-- A booking record, fields from the spec's data model and the Amplify
`Appointment` schema. -/
structure Booking where
  bookingId : Nat
  userId : Nat
  slotId : Nat
  contactPhone : String
  urgencyScore : Int
  category : String
  caseNotes : String
  status : BookingStatus
deriving DecidableEq, Repr

/-- The shared state: the slot pool plus the persisted booking records. -/
structure PoolState where
  slots : List Slot
  bookings : List Booking
deriving DecidableEq, Repr

/-- Modelled from the spec: the configured minimum number of slots in the
primary window below which the allocator extends the search (the spec's
example value 12, matching the 12 slots the booking UI displays). -/
def MIN_SLOTS : Nat := 12

/-- Modelled from the spec: the offer window by tier -- URGENT within 2 days,
MEDIUM within 5 days, STANDARD within 14 days. -/
def windowDays : Tier → Int
  | .URGENT => 2
  | .MEDIUM => 5
  | .STANDARD => 14

/-- Modelled from the spec: the fallback window is the next tier's window
(URGENT falls back to MEDIUM's 5 days, MEDIUM to STANDARD's 14 days, STANDARD
has no wider tier). -/
def fallbackWindowDays : Tier → Int
  | .URGENT => 5
  | .MEDIUM => 14
  | .STANDARD => 14

/-- A slot as offered to the user: the pool slot plus the priority flag
assigned by the allocator (true exactly for slots inside the tier's primary
window; fallback slots carry `isPriority = false`, which distinguishes
them). -/
structure OfferedSlot where
  slot : Slot
  isPriority : Bool
deriving DecidableEq, Repr

/-- Modelled from the spec: the allocator's pool filter -- available, in the
future, and starting within `days` days of `now`. -/
def slotInWindow (now days : Int) (s : Slot) : Bool :=
  s.available && decide (now < s.startTime) && decide (s.startTime ≤ now + days * dayMs)

/-- Chronological order on slots, the allocator's sort key. -/
def slotLE (a b : Slot) : Prop := a.startTime ≤ b.startTime

instance : DecidableRel slotLE := fun x y => inferInstanceAs (Decidable (x.startTime ≤ y.startTime))

instance : IsTotal Slot slotLE := ⟨fun a b => Int.le_total a.startTime b.startTime⟩

instance : IsTrans Slot slotLE := ⟨fun _ _ _ h1 h2 => le_trans h1 h2⟩

/-- Modelled from the spec: the slot allocator `allocateSlots`
(`get_appointment_slots` in the missing `enhanced_tools.py`).  Filter the
pool to available future slots within the tier's window; if fewer than
`MIN_SLOTS` remain, extend the search to the next tier's window; sort
ascending by `startTime`; mark slots inside the primary window as priority
(fallback slots, outside it, are marked non-priority). -/
def allocateSlots (tier : Tier) (now : Int) (pool : List Slot) : List OfferedSlot :=
  let primary := pool.filter (slotInWindow now (windowDays tier))
  let candidates :=
    if primary.length < MIN_SLOTS then
      pool.filter (slotInWindow now (fallbackWindowDays tier))
    else primary
  (List.insertionSort slotLE candidates).map fun s =>
    { slot := s, isPriority := decide (s.startTime ≤ now + windowDays tier * dayMs) }

/-- Result of a booking confirmation: a booking, or one of the two error
values of the spec's error taxonomy. -/
inductive ConfirmResult
  | booked (b : Booking)
  | slotUnavailable
  | invalidContact
deriving DecidableEq, Repr

/-- Modelled from the spec: phone validation.  The spec fixes only that a
malformed phone such as "abc" is rejected; the booking UI suggests the format
"07XXX XXXXXX", so a phone is taken to be valid when it consists of digits,
spaces and a leading plus and carries at least ten digits. -/
def isValidPhone (phone : String) : Bool :=
  phone.toList.all (fun c => c.isDigit || c = ' ' || c = '+') &&
  decide ((phone.toList.filter Char.isDigit).length ≥ 10)

/-- Modelled from the spec: the booking confirmer `confirmBooking`
(`book_appointment` in the missing `enhanced_tools.py`).  Validates the
contact phone, then performs the availability check and flip as one atomic
conditional update against the pool: if a slot with the given id is still
available it is flipped to unavailable and a `Booking` with status
`scheduled` is created; otherwise `slotUnavailable` is returned and the state
is untouched. -/
def confirmBooking (slotId userId : Nat) (phone : String)
    (assessment : UrgencyAssessment) (category caseNotes : String)
    (st : PoolState) : ConfirmResult × PoolState :=
  if isValidPhone phone then
    match st.slots.find? (fun s => s.slotId = slotId && s.available) with
    | none => (.slotUnavailable, st)
    | some _ =>
      let b : Booking :=
        { bookingId := st.bookings.length, userId := userId, slotId := slotId,
          contactPhone := phone, urgencyScore := assessment.score,
          category := category, caseNotes := caseNotes, status := .scheduled }
      (.booked b,
        { slots := st.slots.map fun t =>
            if t.slotId = slotId then { t with available := false } else t,
          bookings := b :: st.bookings })
  else (.invalidContact, st)

/-- C7 -- For every tier, time and pool, `allocateSlots` returns slots in
non-decreasing `startTime` order; since `startTime` alone is the sort key,
the priority flag never places a slot ahead of an earlier non-priority
slot. -/
theorem allocateSlots_sorted (tier : Tier) (now : Int) (pool : List Slot) :
    List.Pairwise (fun a b : OfferedSlot => a.slot.startTime ≤ b.slot.startTime)
      (allocateSlots tier now pool) := by
  unfold allocateSlots
  rw [List.pairwise_map]
  exact List.sorted_insertionSort slotLE _

/-- C6 -- Every slot offered by `allocateSlots` for the URGENT tier carries a
priority flag that is true exactly when its `startTime` is within 2 days of
`now`; a slot beyond the 2-day window (priority flag false, hence
distinguishable from primary slots) is returned only when the primary 2-day
window held fewer than `MIN_SLOTS` slots, and even then lies within the
5-day fallback window. -/
theorem allocateSlots_urgent_window (now : Int) (pool : List Slot)
    (o : OfferedSlot) (ho : o ∈ allocateSlots .URGENT now pool) :
    (o.isPriority = true ↔ o.slot.startTime ≤ now + 2 * dayMs) ∧
    (o.isPriority = false →
      (pool.filter (slotInWindow now (windowDays .URGENT))).length < MIN_SLOTS ∧
      o.slot.startTime ≤ now + 5 * dayMs) := by
  unfold allocateSlots at ho
  obtain ⟨s, hs, rfl⟩ := List.mem_map.1 ho
  rw [List.mem_insertionSort] at hs
  constructor
  · simp [windowDays]
  · intro hnp
    have hgt : ¬ s.startTime ≤ now + 2 * dayMs := by
      simpa [windowDays] using hnp
    by_cases hlen :
        (pool.filter (slotInWindow now (windowDays .URGENT))).length < MIN_SLOTS
    · refine ⟨hlen, ?_⟩
      rw [if_pos hlen] at hs
      have := List.of_mem_filter hs
      simp only [slotInWindow, fallbackWindowDays, Bool.and_eq_true,
        decide_eq_true_eq] at this
      exact this.2
    · exfalso
      rw [if_neg hlen] at hs
      have := List.of_mem_filter hs
      simp only [slotInWindow, windowDays, Bool.and_eq_true,
        decide_eq_true_eq] at this
      omega

/-- Witness for `allocateSlots_urgent_window`: a single slot one day out is
offered with the priority flag set. -/
theorem allocateSlots_urgent_window_witness :
    ((⟨⟨1, dayMs, true⟩, true⟩ : OfferedSlot) ∈
      allocateSlots .URGENT 0 [⟨1, dayMs, true⟩]) ∧
    ((⟨⟨1, dayMs, true⟩, true⟩ : OfferedSlot).isPriority = true ↔
      (⟨⟨1, dayMs, true⟩, true⟩ : OfferedSlot).slot.startTime ≤ 0 + 2 * dayMs) :=
  ⟨by decide,
    (allocateSlots_urgent_window 0 [⟨1, dayMs, true⟩] ⟨⟨1, dayMs, true⟩, true⟩
      (by decide)).1⟩

/-- C8 -- `confirmBooking` with an invalid contact phone returns
`invalidContact` and leaves the state (slot availability included)
unchanged. -/
theorem confirmBooking_invalid_contact (sid uid : Nat) (phone : String)
    (a : UrgencyAssessment) (cat notes : String) (st : PoolState)
    (h : isValidPhone phone = false) :
    confirmBooking sid uid phone a cat notes st = (.invalidContact, st) := by
  simp [confirmBooking, h]

/-- Witness for `confirmBooking_invalid_contact` at the malformed phone
"abc": the call fails with `invalidContact` and the slot pool is returned
untouched. -/
theorem confirmBooking_invalid_contact_witness :
    isValidPhone "abc" = false ∧
    confirmBooking 1 2 "abc" ⟨5, .MEDIUM⟩ "housing" "notes"
        ⟨[⟨1, dayMs, true⟩], []⟩ =
      (.invalidContact, ⟨[⟨1, dayMs, true⟩], []⟩) :=
  ⟨by decide,
    confirmBooking_invalid_contact 1 2 "abc" ⟨5, .MEDIUM⟩ "housing" "notes"
      ⟨[⟨1, dayMs, true⟩], []⟩ (by decide)⟩

/-- C5 -- When a slot is available and both contact phones are valid, of two
`confirmBooking` calls for the same `slotId` (each an atomic conditional
check-and-flip, run in either serialization order) the first returns a
`Booking` and flips the slot to unavailable, and the second returns
`SlotUnavailable`: exactly one succeeds. -/
theorem confirmBooking_exactly_one (sid u1 u2 : Nat) (p1 p2 : String)
    (a1 a2 : UrgencyAssessment) (c1 c2 n1 n2 : String) (st : PoolState)
    (hp1 : isValidPhone p1 = true) (hp2 : isValidPhone p2 = true)
    (havail : ∃ s ∈ st.slots, s.slotId = sid ∧ s.available = true) :
    (∃ b, (confirmBooking sid u1 p1 a1 c1 n1 st).1 = .booked b) ∧
    (∀ s ∈ ((confirmBooking sid u1 p1 a1 c1 n1 st).2).slots,
      s.slotId = sid → s.available = false) ∧
    (confirmBooking sid u2 p2 a2 c2 n2
      ((confirmBooking sid u1 p1 a1 c1 n1 st).2)).1 = .slotUnavailable := by
  obtain ⟨s0, hs0, hid, hav⟩ := havail
  have hfind : (st.slots.find? (fun s => s.slotId = sid && s.available)).isSome :=
    List.find?_isSome.2 ⟨s0, hs0, by simp [hid, hav]⟩
  obtain ⟨s1, hs1⟩ := Option.isSome_iff_exists.1 hfind
  have hst1 : (confirmBooking sid u1 p1 a1 c1 n1 st).2.slots
      = st.slots.map
        (fun t => if t.slotId = sid then { t with available := false } else t) := by
    simp only [confirmBooking, hp1, if_true, hs1]
  have hflip : ∀ s ∈ ((confirmBooking sid u1 p1 a1 c1 n1 st).2).slots,
      s.slotId = sid → s.available = false := by
    intro s hsmem hsid
    rw [hst1] at hsmem
    obtain ⟨t, _, rfl⟩ := List.mem_map.1 hsmem
    by_cases ht : t.slotId = sid
    · simp [ht]
    · rw [if_neg ht] at hsid
      exact absurd hsid ht
  have hunavail : ∀ stx : PoolState,
      stx.slots.find? (fun s => s.slotId = sid && s.available) = none →
      (confirmBooking sid u2 p2 a2 c2 n2 stx).1 = .slotUnavailable := by
    intro stx hx
    simp [confirmBooking, hp2, hx]
  refine ⟨⟨Booking.mk st.bookings.length u1 sid p1 a1.score c1 n1 .scheduled,
      ?_⟩, hflip, ?_⟩
  · simp only [confirmBooking, hp1, if_true, hs1]
  · refine hunavail _ (List.find?_eq_none.2 ?_)
    intro x hx
    by_cases hxid : x.slotId = sid
    · simp [hxid, hflip x hx hxid]
    · simp [hxid]

/-- Witness for `confirmBooking_exactly_one`: with one available slot, the
second of two confirmation attempts observes `SlotUnavailable`. -/
theorem confirmBooking_exactly_one_witness :
    (confirmBooking 1 3 "07123 456789" ⟨9, .URGENT⟩ "debt" ""
      ((confirmBooking 1 2 "07123 456789" ⟨9, .URGENT⟩ "debt" ""
        ⟨[⟨1, dayMs, true⟩], []⟩).2)).1 = .slotUnavailable :=
  (confirmBooking_exactly_one 1 2 3 "07123 456789" "07123 456789"
    ⟨9, .URGENT⟩ ⟨9, .URGENT⟩ "debt" "debt" "" "" ⟨[⟨1, dayMs, true⟩], []⟩
    (by decide) (by decide) ⟨⟨1, dayMs, true⟩, by decide, rfl, rfl⟩).2.2

/-- Modelled from the spec: the operations the system performs on the
persisted booking records.  A booking is created with status `scheduled`
(by the booking confirmer); later operations only transition its status to
`completed`, `cancelled` or `noshow` (advisor completes, user cancels); no
operation deletes a record (audit trail). -/
inductive BookingsStep : List Booking → List Booking → Prop
  | create (b : Booking) (st : List Booking) (hb : b.status = .scheduled) :
      BookingsStep st (b :: st)
  | transition (id : Nat) (newStatus : BookingStatus) (st : List Booking)
      (hs : newStatus = .completed ∨ newStatus = .cancelled ∨ newStatus = .noshow) :
      BookingsStep st
        (st.map fun b => if b.bookingId = id then { b with status := newStatus } else b)

/-- C9 -- In every state reachable from a state containing a booking, a
record with the same identity and payload still exists: the operations only
ever change the `status` field and never delete a booking. -/
theorem bookings_never_deleted (st st' : List Booking)
    (h : Relation.ReflTransGen BookingsStep st st') (b : Booking) (hb : b ∈ st) :
    ∃ b' ∈ st', ∃ s, b' = { b with status := s } := by
  induction h with
  | refl => exact ⟨b, hb, b.status, by cases b; rfl⟩
  | tail _ hstep ih =>
    obtain ⟨c, hc, s, hceq⟩ := ih
    cases hstep with
    | create b2 st2 hb2 => exact ⟨c, List.mem_cons_of_mem _ hc, s, hceq⟩
    | transition id ns st2 hs =>
      by_cases hcid : c.bookingId = id
      · refine ⟨{ c with status := ns }, List.mem_map.2 ⟨c, hc, by rw [if_pos hcid]⟩,
          ns, ?_⟩
        rw [hceq]
      · exact ⟨c, List.mem_map.2 ⟨c, hc, by rw [if_neg hcid]⟩, s, hceq⟩

/-- Witness for `bookings_never_deleted`: a single status transition to
`completed` keeps the booking record. -/
theorem bookings_never_deleted_witness :
    ∃ b' ∈ ([Booking.mk 0 1 2 "07123 456789" 9 "debt" "" .scheduled].map
      fun b => if b.bookingId = 0 then { b with status := BookingStatus.completed }
        else b),
    ∃ s, b' = { Booking.mk 0 1 2 "07123 456789" 9 "debt" "" .scheduled with
      status := s } :=
  bookings_never_deleted _ _
    (Relation.ReflTransGen.single
      (BookingsStep.transition 0 .completed _ (Or.inl rfl)))
    (Booking.mk 0 1 2 "07123 456789" 9 "debt" "" .scheduled) (by simp)

/-- Three days in milliseconds, from `src/unnamed/part_002`
(`3 * 24 * 60 * 60 * 1000`). -/
def threeDaysMs : Int := 3 * 24 * 60 * 60 * 1000

/-- A record of the DynamoDB deadlines table, from the `Deadline` interface
of `src/unnamed/part_002` (`completed` and `reminderSent` are optional
attributes). -/
structure DeadlineRec where
  id : Nat
  userId : Nat
  title : String
  description : Option String
  dueDate : Int
  category : String
  priority : String
  completed : Option Bool
  reminderSent : Option Bool
deriving DecidableEq, Repr

/-- The scan filter of `checkDeadlines` in `src/unnamed/part_002`:
`completed <> :true AND (attribute_not_exists(reminderSent) OR reminderSent
<> :true)`.  In a DynamoDB filter expression a comparison against a missing
attribute is false, so `completed <> :true` requires `completed` to be
present and not true, while the second conjunct explicitly admits a missing
`reminderSent`. -/
def scanFilter (d : DeadlineRec) : Bool :=
  (match d.completed with
    | some b => !b
    | none => false) &&
  (match d.reminderSent with
    | some b => !b
    | none => true)

/-- A reminder email sent by `checkDeadlines` (body text elided; the
day count reproduces `Math.ceil((dueDate - now) / day)` of the source,
which is only evaluated when `dueDate ≥ now`). -/
structure SentEmail where
  deadlineId : Nat
  recipient : String
  daysUntil : Int
deriving DecidableEq, Repr

/-- Ceiling division by `dayMs` for a non-negative difference, as in the
source's `Math.ceil((dueDate.getTime() - now.getTime()) / (24*60*60*1000))`. -/
def ceilDays (diff : Int) : Int := (diff + dayMs - 1) / dayMs

/-- The loop body of `checkDeadlines` in `src/unnamed/part_002`: iterate over
the scan snapshot (`queue`); for each item whose `dueDate` lies between `now`
and `threeDaysFromNow` and whose user has an email, send a reminder and set
`reminderSent = true` on that item in the table. -/
def processDeadlines (now threeDaysFromNow : Int)
    (getUserEmail : Nat → Option String) :
    List DeadlineRec → List DeadlineRec → List SentEmail × List DeadlineRec
  | [], table => ([], table)
  | item :: rest, table =>
    if item.dueDate ≤ threeDaysFromNow ∧ now ≤ item.dueDate then
      match getUserEmail item.userId with
      | some email =>
        let r := processDeadlines now threeDaysFromNow getUserEmail rest
          (table.map fun d =>
            if d.id = item.id then { d with reminderSent := some true } else d)
        (SentEmail.mk item.id email (ceilDays (item.dueDate - now)) :: r.1, r.2)
      | none => processDeadlines now threeDaysFromNow getUserEmail rest table
    else processDeadlines now threeDaysFromNow getUserEmail rest table

/-- `checkDeadlines` from `src/unnamed/part_002`: scan the deadlines table
with the filter expression, then process each scanned item, sending reminder
emails and marking `reminderSent`.  Returns the sent emails and the table
after the updates. -/
def checkDeadlines (now : Int) (getUserEmail : Nat → Option String)
    (table : List DeadlineRec) : List SentEmail × List DeadlineRec :=
  processDeadlines now (now + threeDaysMs) getUserEmail
    (table.filter scanFilter) table

/-- Repeated scheduled runs of the notification handler, each with its own
current time and user-email directory, threading the deadlines table. -/
def runSchedule : List (Int × (Nat → Option String)) → List DeadlineRec →
    List SentEmail × List DeadlineRec
  | [], table => ([], table)
  | (now, ge) :: rest, table =>
    let r := checkDeadlines now ge table
    let r2 := runSchedule rest r.2
    (r.1 ++ r2.1, r2.2)

/-- Every deadline with the given id in the table already carries
`reminderSent = true`. -/
def allMarked (table : List DeadlineRec) (i : Nat) : Prop :=
  ∀ d ∈ table, d.id = i → d.reminderSent = some true

/-- The emails sent by the processing loop depend only on the scan snapshot,
not on the table being updated. -/
theorem processDeadlines_sends_indep (now t3 : Int) (ge : Nat → Option String)
    (queue : List DeadlineRec) : ∀ t1 t2 : List DeadlineRec,
    (processDeadlines now t3 ge queue t1).1 = (processDeadlines now t3 ge queue t2).1 := by
  induction queue with
  | nil => intro t1 t2; rfl
  | cons item rest ih =>
    intro t1 t2
    simp only [processDeadlines]
    split_ifs with hw
    · cases hge : ge item.userId with
      | some email =>
        simp only [hge]
        exact congrArg _ (ih _ _)
      | none =>
        simp only [hge]
        exact ih t1 t2
    · exact ih t1 t2

/-- Processing preserves the property that every entry with a given id is
already marked `reminderSent = true`. -/
theorem processDeadlines_allMarked (now t3 : Int) (ge : Nat → Option String)
    (i : Nat) (queue : List DeadlineRec) : ∀ table : List DeadlineRec,
    allMarked table i → allMarked (processDeadlines now t3 ge queue table).2 i := by
  induction queue with
  | nil => intro table h; exact h
  | cons item rest ih =>
    intro table h
    simp only [processDeadlines]
    split_ifs with hw
    · cases hge : ge item.userId with
      | some email =>
        simp only [hge]
        refine ih _ ?_
        intro d hd hdi
        obtain ⟨d0, hd0, rfl⟩ := List.mem_map.1 hd
        by_cases h0 : d0.id = item.id
        · simp [h0]
        · rw [if_neg h0] at hdi ⊢
          exact h d0 hd0 hdi
      | none =>
        simp only [hge]
        exact ih table h
    · exact ih table h

/-- After the loop runs, every entry whose id was the target of a sent email
carries `reminderSent = true`. -/
theorem processDeadlines_sent_marked (now t3 : Int) (ge : Nat → Option String)
    (i : Nat) (queue : List DeadlineRec) : ∀ (table : List DeadlineRec)
    (e : SentEmail), e ∈ (processDeadlines now t3 ge queue table).1 →
    e.deadlineId = i → allMarked (processDeadlines now t3 ge queue table).2 i := by
  induction queue with
  | nil => intro table e he; cases he
  | cons item rest ih =>
    intro table e he hei
    simp only [processDeadlines] at he ⊢
    split_ifs at he ⊢ with hw
    · cases hge : ge item.userId with
      | some email =>
        simp only [hge] at he ⊢
        rcases List.mem_cons.1 he with rfl | hrest
        · have hii : item.id = i := hei
          refine processDeadlines_allMarked now t3 ge i rest _ ?_
          intro d hd hdi
          obtain ⟨d0, hd0, rfl⟩ := List.mem_map.1 hd
          by_cases h0 : d0.id = item.id
          · simp [h0]
          · rw [if_neg h0] at hdi
            exact absurd (hdi.trans hii.symm) h0
        · exact ih _ e hrest hei
      | none =>
        simp only [hge] at he ⊢
        exact ih table e he hei
    · exact ih table e he hei

/-- Computation rule for the loop: an in-window item with a known email
sends a reminder and updates the table. -/
theorem processDeadlines_cons_send (now t3 : Int) (ge : Nat → Option String)
    (item : DeadlineRec) (rest table : List DeadlineRec) (email : String)
    (hw : item.dueDate ≤ t3 ∧ now ≤ item.dueDate)
    (hge : ge item.userId = some email) :
    processDeadlines now t3 ge (item :: rest) table =
      (SentEmail.mk item.id email (ceilDays (item.dueDate - now)) ::
        (processDeadlines now t3 ge rest (table.map fun d =>
          if d.id = item.id then { d with reminderSent := some true } else d)).1,
      (processDeadlines now t3 ge rest (table.map fun d =>
          if d.id = item.id then { d with reminderSent := some true } else d)).2) := by
  simp only [processDeadlines, if_pos hw, hge]

/-- Computation rule for the loop: an in-window item whose user has no email
is skipped without update. -/
theorem processDeadlines_cons_noemail (now t3 : Int) (ge : Nat → Option String)
    (item : DeadlineRec) (rest table : List DeadlineRec)
    (hw : item.dueDate ≤ t3 ∧ now ≤ item.dueDate)
    (hge : ge item.userId = none) :
    processDeadlines now t3 ge (item :: rest) table =
      processDeadlines now t3 ge rest table := by
  simp only [processDeadlines, if_pos hw, hge]

/-- Computation rule for the loop: an out-of-window item is skipped. -/
theorem processDeadlines_cons_skip (now t3 : Int) (ge : Nat → Option String)
    (item : DeadlineRec) (rest table : List DeadlineRec)
    (hw : ¬(item.dueDate ≤ t3 ∧ now ≤ item.dueDate)) :
    processDeadlines now t3 ge (item :: rest) table =
      processDeadlines now t3 ge rest table := by
  simp only [processDeadlines, if_neg hw]

/-- Each iteration of the loop sends at most as many reminders targeting a
given id as there are snapshot entries with that id. -/
theorem processDeadlines_countP_le (now t3 : Int) (ge : Nat → Option String)
    (i : Nat) (queue : List DeadlineRec) : ∀ table : List DeadlineRec,
    (processDeadlines now t3 ge queue table).1.countP (fun e => e.deadlineId = i)
      ≤ queue.countP (fun d => d.id = i) := by
  induction queue with
  | nil => intro table; simp [processDeadlines]
  | cons item rest ih =>
    intro table
    by_cases hw : item.dueDate ≤ t3 ∧ now ≤ item.dueDate
    · cases hge : ge item.userId with
      | some email =>
        rw [processDeadlines_cons_send now t3 ge item rest table email hw hge,
          List.countP_cons, List.countP_cons]
        exact Nat.add_le_add (ih _) (Nat.le_refl _)
      | none =>
        rw [processDeadlines_cons_noemail now t3 ge item rest table hw hge,
          List.countP_cons]
        exact le_trans (ih table) (Nat.le_add_right _ _)
    · rw [processDeadlines_cons_skip now t3 ge item rest table hw,
        List.countP_cons]
      exact le_trans (ih table) (Nat.le_add_right _ _)

/-- Every email sent in one run targets a snapshot entry lying in the
three-day window. -/
theorem processDeadlines_sends_window (now t3 : Int) (ge : Nat → Option String)
    (queue : List DeadlineRec) : ∀ table : List DeadlineRec,
    ∀ e ∈ (processDeadlines now t3 ge queue table).1, ∃ d ∈ queue,
      d.id = e.deadlineId ∧ now ≤ d.dueDate ∧ d.dueDate ≤ t3 := by
  induction queue with
  | nil => intro table e he; cases he
  | cons item rest ih =>
    intro table e he
    simp only [processDeadlines] at he
    split_ifs at he with hw
    · cases hge : ge item.userId with
      | some email =>
        simp only [hge] at he
        rcases List.mem_cons.1 he with rfl | hrest
        · exact ⟨item, List.mem_cons_self item rest, rfl, hw.2, hw.1⟩
        · obtain ⟨d, hd, hid, hwin⟩ := ih _ e hrest
          exact ⟨d, List.mem_cons_of_mem item hd, hid, hwin⟩
      | none =>
        simp only [hge] at he
        obtain ⟨d, hd, hid, hwin⟩ := ih table e he
        exact ⟨d, List.mem_cons_of_mem item hd, hid, hwin⟩
    · obtain ⟨d, hd, hid, hwin⟩ := ih table e he
      exact ⟨d, List.mem_cons_of_mem item hd, hid, hwin⟩

/-- What passing the DynamoDB filter expression means for the record. -/
theorem scanFilter_spec (d : DeadlineRec) (h : scanFilter d = true) :
    d.completed = some false ∧ d.reminderSent ≠ some true := by
  unfold scanFilter at h
  rw [Bool.and_eq_true] at h
  constructor
  · cases hc : d.completed with
    | none => rw [hc] at h; exact absurd h.1 (by simp)
    | some b =>
      cases b
      · rfl
      · rw [hc] at h; exact absurd h.1 (by simp)
  · cases hr : d.reminderSent with
    | none => simp
    | some b =>
      cases b
      · simp
      · rw [hr] at h; exact absurd h.2 (by simp)

/-- If every entry with the given id is already marked, a run sends no
reminder targeting that id. -/
theorem checkDeadlines_marked_no_sends (now : Int) (ge : Nat → Option String)
    (table : List DeadlineRec) (i : Nat) (h : allMarked table i) :
    (checkDeadlines now ge table).1.countP (fun e => e.deadlineId = i) = 0 := by
  have hq : (table.filter scanFilter).countP (fun d => d.id = i) = 0 := by
    rw [List.countP_eq_zero]
    intro d hd
    simp only [decide_eq_true_eq]
    intro hdi
    have hmem := List.mem_of_mem_filter hd
    have hflt := List.of_mem_filter hd
    have := (scanFilter_spec d hflt).2
    exact this (h d hmem hdi)
  have hle := processDeadlines_countP_le now (now + threeDaysMs) ge i
    (table.filter scanFilter) table
  unfold checkDeadlines
  omega

/-- The loop never changes the ids of the table. -/
theorem processDeadlines_ids (now t3 : Int) (ge : Nat → Option String)
    (queue : List DeadlineRec) : ∀ table : List DeadlineRec,
    (processDeadlines now t3 ge queue table).2.map DeadlineRec.id
      = table.map DeadlineRec.id := by
  induction queue with
  | nil => intro table; rfl
  | cons item rest ih =>
    intro table
    simp only [processDeadlines]
    split_ifs with hw
    · cases hge : ge item.userId with
      | some email =>
        simp only [hge]
        rw [ih, List.map_map]
        refine List.map_congr_left ?_
        intro d _
        by_cases h0 : d.id = item.id <;> simp [h0]
      | none =>
        simp only [hge]
        exact ih table
    · exact ih table

/-- In a list whose image under `f` has no duplicates, at most one element
maps to any given value. -/
theorem countP_le_one_of_nodup_map {α : Type} (f : α → Nat) (i : Nat)
    (l : List α) (h : (l.map f).Nodup) :
    l.countP (fun x => f x = i) ≤ 1 := by
  induction l with
  | nil => simp
  | cons a l ih =>
    rw [List.map_cons, List.nodup_cons] at h
    rw [List.countP_cons]
    by_cases hai : f a = i
    · have hz : l.countP (fun x => f x = i) = 0 := by
        rw [List.countP_eq_zero]
        intro x hx
        simp only [decide_eq_true_eq]
        intro hxi
        exact h.1 (List.mem_map.2 ⟨x, hx, hxi.trans hai.symm⟩)
      have hp : ((fun x => decide (f x = i)) a = true) := by
        simpa using hai
      rw [if_pos hp, hz]
    · have hp : ¬((fun x => decide (f x = i)) a = true) := by
        simpa using hai
      rw [if_neg hp]
      simpa using ih h.2

/-- Once every entry with an id is marked, no later scheduled run ever sends
a reminder for it. -/
theorem runSchedule_marked_no_sends (i : Nat)
    (sched : List (Int × (Nat → Option String))) : ∀ table : List DeadlineRec,
    allMarked table i →
    (runSchedule sched table).1.countP (fun e => e.deadlineId = i) = 0 := by
  induction sched with
  | nil => intro table _; simp [runSchedule]
  | cons p rest ih =>
    intro table h
    obtain ⟨now, ge⟩ := p
    simp only [runSchedule, List.countP_append]
    rw [checkDeadlines_marked_no_sends now ge table i h,
      ih ((checkDeadlines now ge table).2)
        (processDeadlines_allMarked now (now + threeDaysMs) ge i
          (table.filter scanFilter) table h)]

/-- C10 -- The notification handler's `checkDeadlines` step sends a reminder
only for a deadline that is present, not completed, not already marked
`reminderSent`, and whose `dueDate` lies between the current time and three
days ahead; every entry it sent for carries `reminderSent = true` in the
resulting table; and across any sequence of runs over a table with distinct
ids, no deadline id ever receives more than one reminder email. -/
theorem checkDeadlines_reminder_once :
    (∀ (now : Int) (ge : Nat → Option String) (table : List DeadlineRec),
      ∀ e ∈ (checkDeadlines now ge table).1, ∃ d ∈ table,
        d.id = e.deadlineId ∧ d.completed = some false ∧
        d.reminderSent ≠ some true ∧ now ≤ d.dueDate ∧
        d.dueDate ≤ now + threeDaysMs) ∧
    (∀ (now : Int) (ge : Nat → Option String) (table : List DeadlineRec),
      ∀ e ∈ (checkDeadlines now ge table).1,
      ∀ d ∈ (checkDeadlines now ge table).2,
        d.id = e.deadlineId → d.reminderSent = some true) ∧
    (∀ (sched : List (Int × (Nat → Option String))) (table : List DeadlineRec),
      (table.map DeadlineRec.id).Nodup →
      ∀ i, (runSchedule sched table).1.countP (fun e => e.deadlineId = i) ≤ 1) := by
  refine ⟨?_, ?_, ?_⟩
  · intro now ge table e he
    obtain ⟨d, hd, hid, hwin⟩ :=
      processDeadlines_sends_window now (now + threeDaysMs) ge
        (table.filter scanFilter) table e he
    have hmem := List.mem_of_mem_filter hd
    have hspec := scanFilter_spec d (List.of_mem_filter hd)
    exact ⟨d, hmem, hid, hspec.1, hspec.2, hwin.1, hwin.2⟩
  · intro now ge table e he d hd hdi
    exact processDeadlines_sent_marked now (now + threeDaysMs) ge e.deadlineId
      (table.filter scanFilter) table e he rfl d hd hdi
  · intro sched
    induction sched with
    | nil => intro table _ i; simp [runSchedule]
    | cons p rest ih =>
      intro table hnd i
      obtain ⟨now, ge⟩ := p
      simp only [runSchedule, List.countP_append]
      have hids : (checkDeadlines now ge table).2.map DeadlineRec.id
          = table.map DeadlineRec.id :=
        processDeadlines_ids now (now + threeDaysMs) ge
          (table.filter scanFilter) table
      have hnd2 : ((checkDeadlines now ge table).2.map DeadlineRec.id).Nodup := by
        rw [hids]; exact hnd
      by_cases hz :
          (checkDeadlines now ge table).1.countP (fun e => e.deadlineId = i) = 0
      · rw [hz]
        simpa using ih ((checkDeadlines now ge table).2) hnd2 i
      · obtain ⟨e, he, hei⟩ :=
          List.countP_pos_iff.1 (Nat.pos_of_ne_zero hz)
        have hei2 : e.deadlineId = i := by simpa using hei
        have hmarked : allMarked (checkDeadlines now ge table).2 i :=
          processDeadlines_sent_marked now (now + threeDaysMs) ge i
            (table.filter scanFilter) table e he hei2
        have hrest0 :=
          runSchedule_marked_no_sends i rest ((checkDeadlines now ge table).2)
            hmarked
        have hone : (checkDeadlines now ge table).1.countP
            (fun e => e.deadlineId = i) ≤ 1 := by
          have hq := processDeadlines_countP_le now (now + threeDaysMs) ge i
            (table.filter scanFilter) table
          have hqn : ((table.filter scanFilter).map DeadlineRec.id).Nodup :=
            List.Nodup.sublist
              (List.Sublist.map DeadlineRec.id (List.filter_sublist table)) hnd
          exact le_trans hq
            (countP_le_one_of_nodup_map DeadlineRec.id i
              (table.filter scanFilter) hqn)
        omega

/-- Witness for `checkDeadlines_reminder_once`: two consecutive runs over a
one-deadline table send at most one reminder for it. -/
theorem checkDeadlines_reminder_once_witness :
    (([DeadlineRec.mk 5 1 "Appeal" none (2 * dayMs) "benefits" "high"
        (some false) none].map DeadlineRec.id).Nodup) ∧
    ((runSchedule [(0, fun _ => some "user"), (0, fun _ => some "user")]
      [DeadlineRec.mk 5 1 "Appeal" none (2 * dayMs) "benefits" "high"
        (some false) none]).1.countP (fun e => e.deadlineId = 5) ≤ 1) :=
  ⟨by decide,
    checkDeadlines_reminder_once.2.2
      [(0, fun _ => some "user"), (0, fun _ => some "user")]
      [DeadlineRec.mk 5 1 "Appeal" none (2 * dayMs) "benefits" "high"
        (some false) none] (by decide) 5⟩
